import Mathlib

/-!
Verification development for the `Orc8rBase` charm library
(`lib/charms/magma_orc8r_libs/v0/orc8r_base.py`).

The library's handlers are shallowly embedded as Lean functions over an
explicit `World` state describing what the charm can observe through the
operator framework: the relations present in the model (with the data bags
of their remote units), whether this unit is the leader, the Juju model
name, whether the workload container can be connected to, and the services
of the container's currently applied pebble plan.

Python dicts are represented as association lists of key/value pairs with
`dictUpdate` mirroring `dict.update` (replace in place when the key exists,
append otherwise) and `dictEqBy` mirroring Python's order-insensitive dict
equality.  Handler side effects (status sets, event deferrals, pebble layer
applies, service restarts, relation data writes) are recorded in an ordered
effect trace, and `_configure_charm` additionally threads the world because
`container.add_layer` changes the applied plan that later reads observe.
-/

/-- Unit statuses from `ops.model` that the library sets. -/
inductive Status where
  | active
  | maintenance (msg : String)
  | waiting (msg : String)
  | blocked (msg : String)
deriving DecidableEq, Repr

/-- The exceptions relevant to the library's two `try`/`except` blocks:
`ModelError` raised by `container.get_service`, and `AttributeError`,
`KeyError`, `StopIteration` caught in `_relation_active`. -/
inductive PyExc where
  | modelError
  | attributeError
  | keyError
  | stopIteration
deriving DecidableEq, Repr

/-- A pebble service entry as constructed by `_pebble_layer` and as held in
the container plan: the fields of the service dict. -/
structure ServiceSpec where
  override : String
  summary : String
  startup : String
  command : String
  environment : List (String × String)
deriving DecidableEq, Repr

/-- A pebble layer (`ops.pebble.Layer`): summary, description and the
services dict. -/
structure Layer where
  summary : String
  description : String
  services : List (String × ServiceSpec)
deriving DecidableEq, Repr

/-- One Juju relation as the charm observes it: its endpoint name, an
identifier, the remote units in iteration order, and each remote unit's
data bag. -/
structure RelationData where
  id : Nat
  name : String
  units : List String
  bags : List (String × List (String × String))
deriving DecidableEq, Repr

/-- Everything the handlers read from the framework: the model's relations,
leadership, the model (namespace) name, container reachability, and the
services of the container's applied pebble plan. -/
structure World where
  rels : List RelationData
  leader : Bool
  model_name : String
  can_connect : Bool
  plan_services : List (String × ServiceSpec)
deriving DecidableEq, Repr

/-- The constructor arguments of `Orc8rBase` together with the charm
identity it derives: `container_name = service_name = charm.meta.name`. -/
structure Orc8rBase where
  meta_name : String
  startup_command : String
  required_relations : List String
  additional_environment_variables : List (String × String)
deriving DecidableEq, Repr

/-- `self.container_name` (equal to `charm.meta.name`). -/
def container_name (o : Orc8rBase) : String := o.meta_name

/-- `self.service_name` (equal to `charm.meta.name`). -/
def service_name (o : Orc8rBase) : String := o.meta_name

/-- The `namespace` property: the Juju model name. -/
def charm_namespace (w : World) : String := w.model_name

/-- Python's `str` on a bool, as written into relation data. -/
def pyStr (b : Bool) : String := if b then "True" else "False"

/-- First-match lookup of a key in an association list: Python dict access
`d[k]`, with `none` standing for `KeyError`. -/
def alookup {α : Type} (k : String) : List (String × α) → Option α
  | [] => none
  | kv :: d => if kv.1 = k then some kv.2 else alookup k d

/-- Setting one key of a Python dict (`d[k] = v`): replace the entry
holding that key when present, otherwise append the pair. -/
def dictSet {α : Type} (d : List (String × α)) (kv : String × α) : List (String × α) :=
  if (alookup kv.1 d).isSome then
    d.map (fun kv2 => if kv2.1 = kv.1 then kv else kv2)
  else d ++ [kv]

/-- Python `dict.update`: set each key/value pair of `u` in order. -/
def dictUpdate {α : Type} (d u : List (String × α)) : List (String × α) :=
  u.foldl dictSet d

/-- Python dict equality (order-insensitive, value comparison `eq`):
every key of each side is present on the other with an equal value. -/
def dictEqBy {α : Type} (eq : α → α → Bool) (d1 d2 : List (String × α)) : Bool :=
  (d1.all fun kv =>
    match alookup kv.1 d2 with
    | some v => eq kv.2 v
    | none => false) &&
  (d2.all fun kv =>
    match alookup kv.1 d1 with
    | some v => eq v kv.2
    | none => false)

/-- Equality of environment dicts. -/
def envEq (e1 e2 : List (String × String)) : Bool :=
  dictEqBy (fun a b => a == b) e1 e2

/-- Equality of pebble `Service` objects: Python compares their dict
representations, so the environment is compared as a dict. -/
def specEq (s1 s2 : ServiceSpec) : Bool :=
  s1.override == s2.override && s1.summary == s2.summary &&
  s1.startup == s2.startup && s1.command == s2.command &&
  envEq s1.environment s2.environment

/-- Equality of `services` dicts (`plan.services != pebble_layer.services`
negated). -/
def servicesEq (d1 d2 : List (String × ServiceSpec)) : Bool :=
  dictEqBy specEq d1 d2

/-- The keys of an association list are pairwise distinct: every list that
stands for a Python dict satisfies this. -/
def nodupKeys {α : Type} (d : List (String × α)) : Prop :=
  (d.map Prod.fst).Nodup

/-- `self.model.get_relation(name)`: the relation on the given endpoint,
`none` when it does not exist. -/
def get_relation (w : World) (name : String) : Option RelationData :=
  w.rels.find? (fun r => r.name == name)

/-- `self.charm.model.relations[name]`: every relation on the endpoint. -/
def relationsOf (w : World) (name : String) : List RelationData :=
  w.rels.filter (fun r => r.name == name)

/-- `rel.data[unit]`: the data bag of a remote unit of the relation. -/
def bagOf (rel : RelationData) (u : String) : List (String × String) :=
  (alookup u rel.bags).getD []

/-- The body of `_relation_active` before its `except` clause:
`rel.units` raises `AttributeError` when `get_relation` gave `None`,
`next(iter(units))` raises `StopIteration` when there is no remote unit,
and `rel.data[unit]["active"]` raises `KeyError` when the key is absent. -/
def relation_active_body (w : World) (relation_name : String) : Except PyExc Bool :=
  match get_relation w relation_name with
  | none => .error .attributeError
  | some rel =>
    match rel.units with
    | [] => .error .stopIteration
    | u :: _ =>
      match alookup "active" (bagOf rel u) with
      | none => .error .keyError
      | some v => .ok (v == "True")

/-- `_relation_active` with its `except (AttributeError, KeyError,
StopIteration): return False` handler made explicit; any other exception
would propagate. -/
def relation_active_exc (w : World) (relation_name : String) : Except PyExc Bool :=
  match relation_active_body w relation_name with
  | .ok b => .ok b
  | .error .attributeError => .ok false
  | .error .keyError => .ok false
  | .error .stopIteration => .ok false
  | .error e => .error e

/-- `_relation_active` as the total boolean it computes: the result of its
body under the `except` clause returning `False` (every exception the body
can raise is one of the caught three, see `relation_active_exc`). -/
def relation_active (w : World) (relation_name : String) : Bool :=
  match relation_active_body w relation_name with
  | .ok b => b
  | .error _ => false

/-- `container.get_service(self.service_name)`: raises `ModelError` when
the pebble plan holds no service of that name. -/
def get_service_exc (o : Orc8rBase) (w : World) : Except PyExc Unit :=
  if (alookup (service_name o) w.plan_services).isSome then .ok ()
  else .error .modelError

/-- `_service_is_running` with its `try`/`except ModelError: pass` made
explicit: reaching `return False` either because the container is
unreachable or because `ModelError` was caught. -/
def service_is_running_exc (o : Orc8rBase) (w : World) : Except PyExc Bool :=
  if w.can_connect then
    match get_service_exc o w with
    | .ok _ => .ok true
    | .error .modelError => .ok false
    | .error e => .error e
  else .ok false

/-- `_service_is_running` as the total boolean it computes. -/
def service_is_running (o : Orc8rBase) (w : World) : Bool :=
  w.can_connect && (alookup (service_name o) w.plan_services).isSome

/-- The local `default_environment_variables` of `_environment_variables`. -/
def default_environment_variables (o : Orc8rBase) (w : World) : List (String × String) :=
  [("SERVICE_HOSTNAME", container_name o),
   ("SERVICE_REGISTRY_MODE", "k8s"),
   ("SERVICE_REGISTRY_NAMESPACE", charm_namespace w)]

/-- `_environment_variables`: start from `{}`, `update` with the
caller-supplied additional variables, then `update` with the defaults. -/
def environment_variables (o : Orc8rBase) (w : World) : List (String × String) :=
  dictUpdate (dictUpdate [] o.additional_environment_variables)
    (default_environment_variables o w)

/-- `_pebble_layer`: the layer whose single service entry is the charm's
own service. -/
def pebble_layer (o : Orc8rBase) (w : World) : Layer :=
  { summary := service_name o ++ " layer"
    description := "pebble config layer for " ++ service_name o
    services :=
      [(service_name o,
        { override := "replace"
          summary := service_name o
          startup := "enabled"
          command := o.startup_command
          environment := environment_variables o w })] }

/-- One observable side effect of a handler, in the order it happens:
setting the unit status, deferring the event, `container.add_layer`,
`container.restart`, or writing a key into this unit's bag of a relation. -/
inductive Eff where
  | setStatus (s : Status)
  | deferEvent
  | addLayer (label : String) (l : Layer)
  | restart (svc : String)
  | write (relId : Nat) (key : String) (value : String)
deriving DecidableEq, Repr

/-- `_update_relation_active_status`: write `str(is_active)` under the key
`"active"` into this unit's data bag of the relation. -/
def update_relation_active_status (relId : Nat) (is_active : Bool) : Eff :=
  .write relId "active" (pyStr is_active)

/-- `_update_relations`: leader-only; update every relation on the charm's
own endpoint name with the current service status. -/
def update_relations (o : Orc8rBase) (w : World) : List Eff :=
  if w.leader then
    (relationsOf w o.meta_name).map
      (fun rel => update_relation_active_status rel.id (service_is_running o w))
  else []

/-- `_relations_created`: collect the required relation names for which
`get_relation` gives `None`; when any, set Blocked naming them and return
`False`, else return `True`. -/
def relations_created (o : Orc8rBase) (w : World) : List Eff × Bool :=
  match o.required_relations.filter (fun r => (get_relation w r).isNone) with
  | [] => ([], true)
  | missing =>
    ([.setStatus (.blocked
        ("Waiting for relation(s) to be created: " ++ String.intercalate ", " missing))],
     false)

/-- `_relations_ready`: collect the required relation names for which
`_relation_active` is false; when any, set Waiting naming them and return
`False`, else return `True`. -/
def relations_ready (o : Orc8rBase) (w : World) : List Eff × Bool :=
  match o.required_relations.filter (fun r => !relation_active w r) with
  | [] => ([], true)
  | missing =>
    ([.setStatus (.waiting
        ("Waiting for relation(s) to be ready: " ++ String.intercalate ", " missing))],
     false)

/-- The change `container.add_layer(label, layer, combine=True)` makes to
the applied plan's services: the layer's entries (here with override
"replace") supersede same-named entries and extend the plan otherwise. -/
def add_layer_combine (plan : List (String × ServiceSpec)) (l : Layer) :
    List (String × ServiceSpec) :=
  dictUpdate plan l.services

/-- `_configure_charm`: when the container is reachable, set Maintenance,
and when the plan's services differ from the computed layer's, add the
layer, restart the service and update the provided relations (reading
`_service_is_running` against the now-updated plan); finally set Active.
When unreachable, set Waiting and defer. -/
def configure_charm (o : Orc8rBase) (w : World) : World × List Eff :=
  if w.can_connect then
    let pl := pebble_layer o w
    if servicesEq w.plan_services pl.services then
      (w, [.setStatus (.maintenance "Configuring pod"), .setStatus .active])
    else
      let w2 := { w with plan_services := add_layer_combine w.plan_services pl }
      (w2,
       [.setStatus (.maintenance "Configuring pod"),
        .addLayer (container_name o) pl,
        .restart (service_name o)]
       ++ update_relations o w2
       ++ [.setStatus .active])
  else
    (w, [.setStatus (.waiting "Waiting for container to be ready..."), .deferEvent])

/-- `_configure_workload`, the handler bound to the charm's pebble-ready
and upgrade-charm events: defer unless all required relations are created,
then unless all are ready, then configure. -/
def configure_workload (o : Orc8rBase) (w : World) : World × List Eff :=
  match relations_created o w with
  | (effs, false) => (w, effs ++ [.deferEvent])
  | (effs1, true) =>
    match relations_ready o w with
    | (effs2, false) => (w, effs1 ++ effs2 ++ [.deferEvent])
    | (effs2, true) =>
      let (w2, effs3) := configure_charm o w
      (w2, effs1 ++ effs2 ++ effs3)

/-- `_on_relation_joined`, the handler bound to the relation-joined event
of the charm's own endpoint: leader-only; publish the service status into
the joining relation, and defer when the service is not running. -/
def on_relation_joined (o : Orc8rBase) (w : World) (eventRelId : Nat) : List Eff :=
  if w.leader then
    [update_relation_active_status eventRelId (service_is_running o w)]
    ++ (if !service_is_running o w then [.deferEvent] else [])
  else []

/-- The layer applies recorded in a trace. -/
def appliesOf (effs : List Eff) : List (String × Layer) :=
  effs.filterMap (fun e =>
    match e with
    | .addLayer n l => some (n, l)
    | _ => none)

/-- The service restarts recorded in a trace. -/
def restartsOf (effs : List Eff) : List String :=
  effs.filterMap (fun e =>
    match e with
    | .restart s => some s
    | _ => none)

/-- The relation data writes recorded in a trace. -/
def writesOf (effs : List Eff) : List (Nat × String × String) :=
  effs.filterMap (fun e =>
    match e with
    | .write i k v => some (i, k, v)
    | _ => none)

/-- Whether a trace defers the event. -/
def deferredB (effs : List Eff) : Bool :=
  effs.any (fun e =>
    match e with
    | .deferEvent => true
    | _ => false)

/-- The last status a trace sets, if any: the externally visible status
once the handler returns. -/
def lastStatus (effs : List Eff) : Option Status :=
  effs.foldl
    (fun acc e =>
      match e with
      | .setStatus s => some s
      | _ => acc)
    none


/-! ### Association-list (Python dict) lemmas -/

lemma alookup_eq_none_of_not_mem_keys {α : Type} (d : List (String × α)) (a : String)
    (h : a ∉ d.map Prod.fst) : alookup a d = none := by
  induction d with
  | nil => rfl
  | cons x d ih =>
    simp only [List.map_cons, List.mem_cons, not_or] at h
    rw [alookup, if_neg (fun hx => h.1 hx.symm)]
    exact ih h.2

lemma mem_keys_of_alookup_isSome {α : Type} (d : List (String × α)) (a : String)
    (h : (alookup a d).isSome = true) : a ∈ d.map Prod.fst := by
  by_contra hmem
  rw [alookup_eq_none_of_not_mem_keys d a hmem] at h
  simp at h

lemma alookup_isSome_of_mem_keys {α : Type} (d : List (String × α)) (a : String)
    (h : a ∈ d.map Prod.fst) : (alookup a d).isSome = true := by
  induction d with
  | nil => simp at h
  | cons x d ih =>
    rw [alookup]
    by_cases hx : x.1 = a
    · rw [if_pos hx]; rfl
    · rw [if_neg hx]
      apply ih
      simp only [List.map_cons, List.mem_cons] at h
      rcases h with h | h
      · exact absurd h.symm hx
      · exact h

lemma alookup_map_replace {α : Type} (d : List (String × α)) (a : String) (v : α)
    (k : String) :
    alookup k (d.map (fun kv2 => if kv2.1 = a then (a, v) else kv2)) =
      if k = a then (alookup a d).map (fun _ => v) else alookup k d := by
  induction d with
  | nil => by_cases hk : k = a <;> simp [alookup, hk]
  | cons x d ih =>
    obtain ⟨b, w2⟩ := x
    by_cases hb : b = a
    · subst hb
      by_cases hk : k = b
      · subst hk
        simp [alookup]
      · have hk2 : ¬b = k := fun h2 => hk h2.symm
        simp [alookup, ih, hk, hk2]
    · by_cases hk : b = k
      · subst hk
        simp [alookup, hb]
      · simp [alookup, ih, hb, hk]

lemma alookup_append_single {α : Type} (d : List (String × α)) (a : String) (v : α)
    (k : String) (h : alookup a d = none) :
    alookup k (d ++ [(a, v)]) = if k = a then some v else alookup k d := by
  induction d with
  | nil =>
    by_cases hk : k = a
    · subst hk
      simp [alookup]
    · have hk2 : ¬a = k := fun h2 => hk h2.symm
      simp [alookup, hk, hk2]
  | cons x d ih =>
    obtain ⟨b, w2⟩ := x
    rw [alookup] at h
    by_cases hb : b = a
    · rw [if_pos hb] at h
      exact absurd h (Option.some_ne_none _)
    · rw [if_neg hb] at h
      by_cases hk : b = k
      · subst hk
        simp [alookup, hb]
      · simp [alookup, hk, ih h]

lemma alookup_dictSet {α : Type} (d : List (String × α)) (kv : String × α) (k : String) :
    alookup k (dictSet d kv) = if k = kv.1 then some kv.2 else alookup k d := by
  obtain ⟨a, v⟩ := kv
  rw [dictSet]
  by_cases h : (alookup a d).isSome
  · rw [if_pos h, alookup_map_replace]
    by_cases hk : k = a
    · subst hk
      obtain ⟨x, hx⟩ := Option.isSome_iff_exists.mp h
      rw [if_pos rfl, if_pos rfl, hx]
      rfl
    · rw [if_neg hk, if_neg hk]
  · rw [if_neg h]
    exact alookup_append_single d a v k (Option.not_isSome_iff_eq_none.mp h)

lemma alookup_dictUpdate {α : Type} (d u : List (String × α)) (hu : nodupKeys u)
    (k : String) :
    alookup k (dictUpdate d u) = (alookup k u).or (alookup k d) := by
  induction u generalizing d with
  | nil => rw [dictUpdate, List.foldl_nil, alookup, Option.none_or]
  | cons kv u ih =>
    obtain ⟨a, v⟩ := kv
    have hu2 := List.nodup_cons.mp hu
    have step : dictUpdate d ((a, v) :: u) = dictUpdate (dictSet d (a, v)) u := rfl
    rw [step, ih _ hu2.2, alookup_dictSet, alookup]
    by_cases hk : a = k
    · subst hk
      rw [if_pos rfl, if_pos rfl,
        alookup_eq_none_of_not_mem_keys u a hu2.1, Option.none_or, Option.or_some]
    · rw [if_neg hk, if_neg (fun h2 : k = a => hk h2.symm)]

lemma nodupKeys_dictSet {α : Type} (d : List (String × α)) (kv : String × α)
    (hd : nodupKeys d) : nodupKeys (dictSet d kv) := by
  obtain ⟨a, v⟩ := kv
  rw [dictSet]
  by_cases h : (alookup a d).isSome
  · rw [if_pos h]
    have hkeys : (d.map (fun kv2 => if kv2.1 = a then (a, v) else kv2)).map Prod.fst
        = d.map Prod.fst := by
      rw [List.map_map]
      apply List.map_congr_left
      intro x _
      by_cases hx : x.1 = a <;> simp [hx]
    unfold nodupKeys
    rw [hkeys]
    exact hd
  · rw [if_neg h]
    have ha : a ∉ d.map Prod.fst := fun hmem => h (alookup_isSome_of_mem_keys d a hmem)
    unfold nodupKeys
    rw [List.map_append, List.nodup_append]
    refine ⟨hd, List.nodup_singleton _, ?_⟩
    intro x hx hmem
    simp only [List.map_cons, List.map_nil, List.mem_singleton] at hmem
    exact ha (hmem ▸ hx)

lemma nodupKeys_dictUpdate {α : Type} (d u : List (String × α)) (hd : nodupKeys d) :
    nodupKeys (dictUpdate d u) := by
  induction u generalizing d with
  | nil => exact hd
  | cons kv u ih => exact ih (dictSet d kv) (nodupKeys_dictSet d kv hd)

lemma alookup_of_mem_nodupKeys {α : Type} (d : List (String × α)) (kv : String × α)
    (hd : nodupKeys d) (hm : kv ∈ d) : alookup kv.1 d = some kv.2 := by
  induction d with
  | nil => cases hm
  | cons x d ih =>
    have hd2 := List.nodup_cons.mp hd
    rcases List.mem_cons.mp hm with hm2 | hm2
    · subst hm2
      rw [alookup, if_pos rfl]
    · rw [alookup]
      have hx : ¬x.1 = kv.1 := by
        intro hcontra
        exact hd2.1 (hcontra ▸ List.mem_map.mpr ⟨kv, hm2, rfl⟩)
      rw [if_neg hx]
      exact ih hd2.2 hm2

/-! ### Dict equality lemmas -/

lemma envEq_refl (e : List (String × String)) (he : nodupKeys e) : envEq e e = true := by
  unfold envEq dictEqBy
  rw [Bool.and_eq_true]
  constructor <;>
  · rw [List.all_eq_true]
    intro kv hkv
    rw [alookup_of_mem_nodupKeys e kv he hkv]
    simp

lemma specEq_refl (s : ServiceSpec) (he : nodupKeys s.environment) : specEq s s = true := by
  simp [specEq, envEq_refl s.environment he]

lemma servicesEq_single (n : String) (s : ServiceSpec) (hs : specEq s s = true) :
    servicesEq [(n, s)] [(n, s)] = true := by
  simp [servicesEq, dictEqBy, alookup, hs]

lemma nodupKeys_environment_variables (o : Orc8rBase) (w : World) :
    nodupKeys (environment_variables o w) := by
  unfold environment_variables
  apply nodupKeys_dictUpdate
  apply nodupKeys_dictUpdate
  simp [nodupKeys]

lemma servicesEq_plan_layer_false (o : Orc8rBase) (w : World)
    (h : alookup (service_name o) w.plan_services = none) :
    servicesEq w.plan_services (pebble_layer o w).services = false := by
  simp [servicesEq, dictEqBy, pebble_layer, alookup, h]

/-! ### Effect-trace lemmas -/

lemma lastStatus_foldl (l : List Eff) (a : Option Status) :
    l.foldl
      (fun acc e =>
        match e with
        | .setStatus s => some s
        | _ => acc)
      a = (lastStatus l).or a := by
  induction l generalizing a with
  | nil => rw [lastStatus, List.foldl_nil, List.foldl_nil, Option.none_or]
  | cons e l ih =>
    rw [List.foldl_cons, ih]
    have h2 : lastStatus (e :: l) =
        (lastStatus l).or
          (match e with
          | Eff.setStatus s => some s
          | _ => none) := by
      rw [lastStatus, List.foldl_cons]
      exact ih _
    rw [h2]
    cases hl : lastStatus l <;> cases e <;> simp

lemma lastStatus_append (l1 l2 : List Eff) :
    lastStatus (l1 ++ l2) = (lastStatus l2).or (lastStatus l1) := by
  rw [lastStatus, List.foldl_append, ← lastStatus, lastStatus_foldl]

lemma appliesOf_append (l1 l2 : List Eff) :
    appliesOf (l1 ++ l2) = appliesOf l1 ++ appliesOf l2 :=
  List.filterMap_append l1 l2 _

lemma restartsOf_append (l1 l2 : List Eff) :
    restartsOf (l1 ++ l2) = restartsOf l1 ++ restartsOf l2 :=
  List.filterMap_append l1 l2 _

lemma writesOf_append (l1 l2 : List Eff) :
    writesOf (l1 ++ l2) = writesOf l1 ++ writesOf l2 :=
  List.filterMap_append l1 l2 _

lemma deferredB_append (l1 l2 : List Eff) :
    deferredB (l1 ++ l2) = (deferredB l1 || deferredB l2) :=
  List.any_append

lemma appliesOf_update_relations (o : Orc8rBase) (w : World) :
    appliesOf (update_relations o w) = [] := by
  unfold update_relations
  by_cases h : w.leader
  · rw [if_pos h]
    unfold appliesOf
    rw [List.filterMap_map]
    exact List.filterMap_eq_nil_iff.mpr (fun a _ => rfl)
  · rw [if_neg h]
    rfl

lemma restartsOf_update_relations (o : Orc8rBase) (w : World) :
    restartsOf (update_relations o w) = [] := by
  unfold update_relations
  by_cases h : w.leader
  · rw [if_pos h]
    unfold restartsOf
    rw [List.filterMap_map]
    exact List.filterMap_eq_nil_iff.mpr (fun a _ => rfl)
  · rw [if_neg h]
    rfl

lemma writesOf_map_update (rels : List RelationData) (b : Bool) :
    writesOf (rels.map (fun rel => update_relation_active_status rel.id b)) =
      rels.map (fun rel => (rel.id, "active", pyStr b)) := by
  induction rels with
  | nil => rfl
  | cons r rels ih =>
    simp only [List.map_cons, writesOf, List.filterMap_cons] at ih ⊢
    rw [ih]
    rfl

lemma writesOf_update_relations (o : Orc8rBase) (w : World) :
    writesOf (update_relations o w) =
      if w.leader then
        (relationsOf w o.meta_name).map
          (fun rel => (rel.id, "active", pyStr (service_is_running o w)))
      else [] := by
  unfold update_relations
  by_cases h : w.leader
  · rw [if_pos h, if_pos h]
    exact writesOf_map_update (relationsOf w o.meta_name) (service_is_running o w)
  · rw [if_neg h, if_neg h]
    rfl

lemma deferredB_update_relations (o : Orc8rBase) (w : World) :
    deferredB (update_relations o w) = false := by
  unfold update_relations
  by_cases h : w.leader
  · rw [if_pos h]
    unfold deferredB
    rw [List.any_eq_false]
    intro e he
    rcases List.mem_map.mp he with ⟨rel, _, hrel⟩
    rw [← hrel]
    simp [update_relation_active_status]
  · rw [if_neg h]
    rfl

lemma lastStatus_update_relations (o : Orc8rBase) (w : World) :
    lastStatus (update_relations o w) = none := by
  unfold update_relations
  by_cases h : w.leader
  · rw [if_pos h]
    generalize (relationsOf w o.meta_name) = rels
    induction rels with
    | nil => rfl
    | cons r rels ih =>
      rw [List.map_cons, lastStatus, List.foldl_cons, lastStatus_foldl]
      rw [ih, Option.none_or]
      rfl
  · rw [if_neg h]
    rfl

/-! ### Handler reduction lemmas -/

lemma get_relation_set_plan (w : World) (p : List (String × ServiceSpec)) (r : String) :
    get_relation { w with plan_services := p } r = get_relation w r := rfl

lemma relation_active_set_plan (w : World) (p : List (String × ServiceSpec)) (r : String) :
    relation_active { w with plan_services := p } r = relation_active w r := rfl

lemma pebble_layer_set_plan (o : Orc8rBase) (w : World) (p : List (String × ServiceSpec)) :
    pebble_layer o { w with plan_services := p } = pebble_layer o w := rfl

lemma relations_created_true (o : Orc8rBase) (w : World)
    (h : ∀ r ∈ o.required_relations, (get_relation w r).isSome = true) :
    relations_created o w = ([], true) := by
  unfold relations_created
  have hfil : o.required_relations.filter (fun r => (get_relation w r).isNone) = [] := by
    rw [List.filter_eq_nil_iff]
    intro r hr
    have := h r hr
    cases hge : get_relation w r with
    | some rel => simp
    | none => rw [hge] at this; simp at this
  rw [hfil]

lemma relations_ready_true (o : Orc8rBase) (w : World)
    (h : ∀ r ∈ o.required_relations, relation_active w r = true) :
    relations_ready o w = ([], true) := by
  unfold relations_ready
  have hfil : o.required_relations.filter (fun r => !relation_active w r) = [] := by
    rw [List.filter_eq_nil_iff]
    intro r hr
    rw [h r hr]
    simp
  rw [hfil]

lemma configure_workload_of_ready (o : Orc8rBase) (w : World)
    (hc : ∀ r ∈ o.required_relations, (get_relation w r).isSome = true)
    (hr : ∀ r ∈ o.required_relations, relation_active w r = true) :
    configure_workload o w = configure_charm o w := by
  unfold configure_workload
  rw [relations_created_true o w hc, relations_ready_true o w hr]
  simp

lemma plan_single_of_own_keys (o : Orc8rBase) (w : World)
    (hnd : nodupKeys w.plan_services)
    (hown : ∀ kv ∈ w.plan_services, kv.1 = service_name o) :
    w.plan_services = [] ∨ ∃ s0, w.plan_services = [(service_name o, s0)] := by
  cases hp : w.plan_services with
  | nil => exact Or.inl rfl
  | cons kv rest =>
    right
    rw [hp] at hown hnd
    have hk := hown kv (List.mem_cons_self kv rest)
    have hrest : rest = [] := by
      cases hrest : rest with
      | nil => rfl
      | cons kv2 rest2 =>
        exfalso
        rw [hrest] at hown hnd
        have hk2 := hown kv2 (List.mem_cons_of_mem kv (List.mem_cons_self kv2 rest2))
        unfold nodupKeys at hnd
        rw [List.map_cons, List.nodup_cons] at hnd
        exact hnd.1 (by
          rw [hk, ← hk2]
          exact List.mem_map.mpr ⟨kv2, List.mem_cons_self kv2 rest2, rfl⟩)
    refine ⟨kv.2, ?_⟩
    rw [hrest, ← hk]

lemma configure_charm_noconnect (o : Orc8rBase) (w : World) (h : w.can_connect = false) :
    configure_charm o w =
      (w, [.setStatus (.waiting "Waiting for container to be ready..."), .deferEvent]) := by
  unfold configure_charm
  rw [h]
  simp

lemma configure_charm_eq_spec (o : Orc8rBase) (w : World)
    (hconn : w.can_connect = true)
    (hs : servicesEq w.plan_services (pebble_layer o w).services = true) :
    configure_charm o w =
      (w, [.setStatus (.maintenance "Configuring pod"), .setStatus .active]) := by
  unfold configure_charm
  simp [hconn, hs]

lemma configure_charm_diff_spec (o : Orc8rBase) (w : World)
    (hconn : w.can_connect = true)
    (hs : servicesEq w.plan_services (pebble_layer o w).services = false) :
    configure_charm o w =
      ({ w with plan_services := add_layer_combine w.plan_services (pebble_layer o w) },
       [.setStatus (.maintenance "Configuring pod"),
        .addLayer (container_name o) (pebble_layer o w),
        .restart (service_name o)]
       ++ update_relations o
           { w with plan_services := add_layer_combine w.plan_services (pebble_layer o w) }
       ++ [.setStatus .active]) := by
  unfold configure_charm
  simp [hconn, hs]

lemma alookup_dictUpdate_single {α : Type} (d : List (String × α)) (n : String) (v : α) :
    alookup n (dictUpdate d [(n, v)]) = some v := by
  show alookup n (dictSet d (n, v)) = some v
  rw [alookup_dictSet]
  simp

lemma service_is_running_after_apply (o : Orc8rBase) (w : World)
    (hconn : w.can_connect = true) :
    service_is_running o
      { w with plan_services := add_layer_combine w.plan_services (pebble_layer o w) }
      = true := by
  unfold service_is_running add_layer_combine pebble_layer
  simp [hconn, alookup_dictUpdate_single]

lemma nodupKeys_default_environment_variables (o : Orc8rBase) (w : World) :
    nodupKeys (default_environment_variables o w) := by
  unfold nodupKeys default_environment_variables
  simp

/-! ### Claim theorems -/

/-- C1: with all required relations created and ready, the container
reachable, and no process spec previously applied for the service, the
pebble-ready/upgrade handler performs exactly one layer apply and exactly
one restart of the named service, does not defer, leaves the unit status
Active, and the environment of the applied layer is the caller-supplied
overrides merged with the defaults (hostname, registry mode, registry
namespace), defaults winning every key collision. -/
theorem orc8r_c1 (o : Orc8rBase) (w : World)
    (hadd : nodupKeys o.additional_environment_variables)
    (hcreated : ∀ r ∈ o.required_relations, (get_relation w r).isSome = true)
    (hready : ∀ r ∈ o.required_relations, relation_active w r = true)
    (hconn : w.can_connect = true)
    (hplan : alookup (service_name o) w.plan_services = none) :
    appliesOf (configure_workload o w).2 = [(container_name o, pebble_layer o w)] ∧
    restartsOf (configure_workload o w).2 = [service_name o] ∧
    lastStatus (configure_workload o w).2 = some Status.active ∧
    deferredB (configure_workload o w).2 = false ∧
    (pebble_layer o w).services.map (fun kv => kv.2.environment) =
      [environment_variables o w] ∧
    ∀ k, alookup k (environment_variables o w) =
      (alookup k (default_environment_variables o w)).or
        (alookup k o.additional_environment_variables) := by
  rw [configure_workload_of_ready o w hcreated hready,
    configure_charm_diff_spec o w hconn (servicesEq_plan_layer_false o w hplan)]
  refine ⟨?_, ?_, ?_, ?_, rfl, ?_⟩
  · rw [appliesOf_append, appliesOf_append, appliesOf_update_relations]
    rfl
  · rw [restartsOf_append, restartsOf_append, restartsOf_update_relations]
    rfl
  · rw [lastStatus_append]
    simp [lastStatus]
  · rw [deferredB_append, deferredB_append, deferredB_update_relations]
    rfl
  · intro k
    unfold environment_variables
    rw [alookup_dictUpdate _ _ (nodupKeys_default_environment_variables o w) k,
      alookup_dictUpdate _ _ hadd k]
    rw [show alookup k ([] : List (String × String)) = none from rfl, Option.or_none]

/-- A concrete charm configuration used by witnesses: one required
relation "a", and caller overrides that collide with a default key. -/
def wBase : Orc8rBase :=
  { meta_name := "svc"
    startup_command := "run"
    required_relations := ["a"]
    additional_environment_variables :=
      [("FOO", "bar"), ("SERVICE_REGISTRY_MODE", "docker")] }

/-- A concrete world for witnesses: the required relation exists and its
counterpart has published active = "True"; the container is reachable and
its plan is empty. -/
def wWorld : World :=
  { rels := [{ id := 7, name := "a", units := ["u0"],
               bags := [("u0", [("active", "True")])] }]
    leader := true
    model_name := "mdl"
    can_connect := true
    plan_services := [] }

/-- Witness for C1: at the concrete input the handler applies the one
layer, ends Active, and the applied environment keeps the caller's fresh
key but the default wins the collision on SERVICE_REGISTRY_MODE. -/
theorem orc8r_c1_witness :
    appliesOf (configure_workload wBase wWorld).2 = [("svc", pebble_layer wBase wWorld)] ∧
    restartsOf (configure_workload wBase wWorld).2 = ["svc"] ∧
    lastStatus (configure_workload wBase wWorld).2 = some Status.active ∧
    alookup "SERVICE_REGISTRY_MODE" (environment_variables wBase wWorld) = some "k8s" ∧
    alookup "FOO" (environment_variables wBase wWorld) = some "bar" := by
  have H := orc8r_c1 wBase wWorld (by unfold nodupKeys; decide) (by decide) (by decide)
    (by decide) (by decide)
  refine ⟨H.1, H.2.1, H.2.2.1, ?_, ?_⟩
  · rw [H.2.2.2.2.2 "SERVICE_REGISTRY_MODE"]
    decide
  · rw [H.2.2.2.2.2 "FOO"]
    decide

/-- C3: when the set of required relations that do not exist is non-empty,
the handler sets Blocked naming exactly the missing names comma-joined in
required-relations order, defers, changes no state, and performs no
readiness check, layer apply, restart or relation write. -/
theorem orc8r_c3 (o : Orc8rBase) (w : World)
    (h : o.required_relations.filter (fun r => (get_relation w r).isNone) ≠ []) :
    (configure_workload o w).2 =
      [.setStatus (.blocked ("Waiting for relation(s) to be created: " ++
        String.intercalate ", "
          (o.required_relations.filter (fun r => (get_relation w r).isNone)))),
       .deferEvent] ∧
    (configure_workload o w).1 = w ∧
    appliesOf (configure_workload o w).2 = [] ∧
    restartsOf (configure_workload o w).2 = [] ∧
    writesOf (configure_workload o w).2 = [] ∧
    deferredB (configure_workload o w).2 = true := by
  cases hm : o.required_relations.filter (fun r => (get_relation w r).isNone) with
  | nil => exact absurd hm h
  | cons a l =>
    have hcw : configure_workload o w =
        (w, [.setStatus (.blocked ("Waiting for relation(s) to be created: " ++
          String.intercalate ", " (a :: l))), .deferEvent]) := by
      unfold configure_workload relations_created
      rw [hm]
      rfl
    rw [hcw]
    exact ⟨rfl, rfl, rfl, rfl, rfl, rfl⟩

/-- A concrete world whose only difference from `wWorld` is that the
required relation "a" does not exist. -/
def wWorldMissing : World :=
  { rels := [], leader := true, model_name := "mdl", can_connect := true,
    plan_services := [] }

/-- Witness for C3: with relation "a" missing, the handler blocks naming
"a" and defers. -/
theorem orc8r_c3_witness :
    (configure_workload wBase wWorldMissing).2 =
      [.setStatus (.blocked "Waiting for relation(s) to be created: a"),
       .deferEvent] := by
  have H := orc8r_c3 wBase wWorldMissing (by decide)
  rw [H.1]
  decide

/-- C4: when every required relation exists but the set of not-ready ones
is non-empty, the handler sets Waiting naming exactly the not-ready names
comma-joined in required-relations order, defers, and performs no layer
apply, restart or relation write. -/
theorem orc8r_c4 (o : Orc8rBase) (w : World)
    (hcreated : ∀ r ∈ o.required_relations, (get_relation w r).isSome = true)
    (h : o.required_relations.filter (fun r => !relation_active w r) ≠ []) :
    (configure_workload o w).2 =
      [.setStatus (.waiting ("Waiting for relation(s) to be ready: " ++
        String.intercalate ", "
          (o.required_relations.filter (fun r => !relation_active w r)))),
       .deferEvent] ∧
    (configure_workload o w).1 = w ∧
    appliesOf (configure_workload o w).2 = [] ∧
    restartsOf (configure_workload o w).2 = [] ∧
    writesOf (configure_workload o w).2 = [] ∧
    deferredB (configure_workload o w).2 = true := by
  cases hm : o.required_relations.filter (fun r => !relation_active w r) with
  | nil => exact absurd hm h
  | cons a l =>
    have hcw : configure_workload o w =
        (w, [.setStatus (.waiting ("Waiting for relation(s) to be ready: " ++
          String.intercalate ", " (a :: l))), .deferEvent]) := by
      unfold configure_workload
      rw [relations_created_true o w hcreated]
      unfold relations_ready
      rw [hm]
      rfl
    rw [hcw]
    exact ⟨rfl, rfl, rfl, rfl, rfl, rfl⟩

/-- A concrete world where relation "a" exists but its counterpart has
published active = "False". -/
def wWorldNotReady : World :=
  { rels := [{ id := 7, name := "a", units := ["u0"],
               bags := [("u0", [("active", "False")])] }]
    leader := true
    model_name := "mdl"
    can_connect := true
    plan_services := [] }

/-- Witness for C4: with relation "a" created but not ready, the handler
waits naming "a" and defers. -/
theorem orc8r_c4_witness :
    (configure_workload wBase wWorldNotReady).2 =
      [.setStatus (.waiting "Waiting for relation(s) to be ready: a"),
       .deferEvent] := by
  have H := orc8r_c4 wBase wWorldNotReady (by decide) (by decide)
  rw [H.1]
  decide

/-- Whether an optional status is a Waiting status. -/
def isWaitingStatus : Option Status → Bool
  | some (Status.waiting _) => true
  | _ => false

/-- A concrete world with no relations and an unreachable container. -/
def wWorldDown : World :=
  { rels := [], leader := true, model_name := "mdl", can_connect := false,
    plan_services := [] }

/-- Counterexample to C5 as stated: with the container unreachable but the
required relation "a" missing, the handler sets Blocked, not Waiting. -/
theorem orc8r_c5_counterexample :
    wWorldDown.can_connect = false ∧
    isWaitingStatus (lastStatus (configure_workload wBase wWorldDown).2) = false ∧
    lastStatus (configure_workload wBase wWorldDown).2 =
      some (Status.blocked "Waiting for relation(s) to be created: a") := by
  decide

/-- C5 (amended): whenever the container cannot be connected to, the
handler defers the event regardless of relation state; the status it sets
is a Waiting status whenever every required relation exists, and a Blocked
status when some required relation is missing. -/
theorem orc8r_c5_amended (o : Orc8rBase) (w : World) (h : w.can_connect = false) :
    deferredB (configure_workload o w).2 = true ∧
    ((∀ r ∈ o.required_relations, (get_relation w r).isSome = true) →
      ∃ m, lastStatus (configure_workload o w).2 = some (Status.waiting m)) ∧
    ((∃ r ∈ o.required_relations, get_relation w r = none) →
      ∃ m, lastStatus (configure_workload o w).2 = some (Status.blocked m)) := by
  cases hm : o.required_relations.filter (fun r => (get_relation w r).isNone) with
  | cons a l =>
    have hcw : configure_workload o w =
        (w, [.setStatus (.blocked ("Waiting for relation(s) to be created: " ++
          String.intercalate ", " (a :: l))), .deferEvent]) := by
      unfold configure_workload relations_created
      rw [hm]
      rfl
    rw [hcw]
    refine ⟨rfl, ?_, fun _ => ⟨_, rfl⟩⟩
    intro hall
    exfalso
    obtain ⟨haL, hpa⟩ := List.mem_filter.mp (hm.symm ▸ List.mem_cons_self a l)
    have h2 := hall a haL
    cases hg : get_relation w a with
    | none => rw [hg] at h2; simp at h2
    | some rel => rw [hg] at hpa; simp at hpa
  | nil =>
    have hall : relations_created o w = ([], true) := by
      unfold relations_created
      rw [hm]
    cases hr : o.required_relations.filter (fun r => !relation_active w r) with
    | cons a l =>
      have hcw : configure_workload o w =
          (w, [.setStatus (.waiting ("Waiting for relation(s) to be ready: " ++
            String.intercalate ", " (a :: l))), .deferEvent]) := by
        unfold configure_workload
        rw [hall]
        unfold relations_ready
        rw [hr]
        rfl
      rw [hcw]
      refine ⟨rfl, fun _ => ⟨_, rfl⟩, ?_⟩
      rintro ⟨r, hrL, hrnone⟩
      have hmem : r ∈ o.required_relations.filter (fun r => (get_relation w r).isNone) :=
        List.mem_filter.mpr ⟨hrL, by rw [hrnone]; rfl⟩
      rw [hm] at hmem
      cases hmem
    | nil =>
      have hready : relations_ready o w = ([], true) := by
        unfold relations_ready
        rw [hr]
      have hcw : configure_workload o w = configure_charm o w := by
        unfold configure_workload
        rw [hall, hready]
        simp
      rw [hcw, configure_charm_noconnect o w h]
      refine ⟨rfl, fun _ => ⟨_, rfl⟩, ?_⟩
      rintro ⟨r, hrL, hrnone⟩
      have hmem : r ∈ o.required_relations.filter (fun r => (get_relation w r).isNone) :=
        List.mem_filter.mpr ⟨hrL, by rw [hrnone]; rfl⟩
      rw [hm] at hmem
      cases hmem

/-- A concrete world where relation "a" is created and ready but the
container is unreachable. -/
def wWorldReadyDown : World :=
  { rels := [{ id := 7, name := "a", units := ["u0"],
               bags := [("u0", [("active", "True")])] }]
    leader := true
    model_name := "mdl"
    can_connect := false
    plan_services := [] }

/-- Witness for the amended C5: with the container unreachable and all
relations ready, the handler defers and the status is a Waiting status. -/
theorem orc8r_c5_witness :
    deferredB (configure_workload wBase wWorldReadyDown).2 = true ∧
    lastStatus (configure_workload wBase wWorldReadyDown).2 =
      some (Status.waiting "Waiting for container to be ready...") := by
  have H := orc8r_c5_amended wBase wWorldReadyDown rfl
  exact ⟨H.1, by decide⟩

/-- C6: the readiness probe `_service_is_running` is total: its
exception-explicit form never propagates an error, and it returns true
exactly when the container can be connected to and the plan's service
registry holds the named service. -/
theorem orc8r_c6 (o : Orc8rBase) (w : World) :
    service_is_running_exc o w = Except.ok (service_is_running o w) ∧
    service_is_running o w =
      (w.can_connect && (alookup (service_name o) w.plan_services).isSome) := by
  refine ⟨?_, rfl⟩
  unfold service_is_running_exc get_service_exc service_is_running
  by_cases h : w.can_connect = true
  · by_cases h2 : (alookup (service_name o) w.plan_services).isSome = true
    · simp [h, h2]
    · rw [Bool.not_eq_true] at h2
      simp [h, h2]
  · rw [Bool.not_eq_true] at h
    simp [h]

/-- C7: on relation-joined, a non-leader writes nothing and does not
defer; a leader with the service not running writes "False" under "active"
into the joining relation and defers; a leader with the service running
writes "True" and does not defer. -/
theorem orc8r_c7 (o : Orc8rBase) (w : World) (rid : Nat) :
    (w.leader = false → on_relation_joined o w rid = []) ∧
    (w.leader = true → service_is_running o w = false →
      on_relation_joined o w rid = [.write rid "active" "False", .deferEvent]) ∧
    (w.leader = true → service_is_running o w = true →
      on_relation_joined o w rid = [.write rid "active" "True"]) := by
  refine ⟨?_, ?_, ?_⟩
  · intro h
    unfold on_relation_joined
    rw [h]
    rfl
  · intro h h2
    unfold on_relation_joined update_relation_active_status pyStr
    rw [h, h2]
    rfl
  · intro h h2
    unfold on_relation_joined update_relation_active_status pyStr
    rw [h, h2]
    rfl

/-- A concrete non-leader world. -/
def wWorldFollower : World :=
  { rels := [], leader := false, model_name := "mdl", can_connect := true,
    plan_services := [] }

/-- A service spec under which the charm's own service is in the plan. -/
def specRun : ServiceSpec :=
  { override := "replace", summary := "svc", startup := "enabled",
    command := "run", environment := [] }

/-- A concrete leader world whose plan holds the charm's own service. -/
def wWorldRunning : World :=
  { rels := [], leader := true, model_name := "mdl", can_connect := true,
    plan_services := [("svc", specRun)] }

/-- Witness for C7 at three concrete worlds: non-leader, leader with the
service stopped, leader with the service running. -/
theorem orc8r_c7_witness :
    on_relation_joined wBase wWorldFollower 3 = [] ∧
    on_relation_joined wBase wWorld 3 = [.write 3 "active" "False", .deferEvent] ∧
    on_relation_joined wBase wWorldRunning 3 = [.write 3 "active" "True"] :=
  ⟨(orc8r_c7 wBase wWorldFollower 3).1 rfl,
   (orc8r_c7 wBase wWorld 3).2.1 rfl (by decide),
   (orc8r_c7 wBase wWorldRunning 3).2.2 rfl (by decide)⟩


lemma relations_created_cases (o : Orc8rBase) (w : World) :
    relations_created o w = ([], true) ∨
    ∃ m, relations_created o w = ([.setStatus (.blocked m)], false) := by
  unfold relations_created
  cases hm : o.required_relations.filter (fun r => (get_relation w r).isNone) with
  | nil => exact Or.inl rfl
  | cons a l => exact Or.inr ⟨_, rfl⟩

lemma relations_ready_cases (o : Orc8rBase) (w : World) :
    relations_ready o w = ([], true) ∨
    ∃ m, relations_ready o w = ([.setStatus (.waiting m)], false) := by
  unfold relations_ready
  cases hm : o.required_relations.filter (fun r => !relation_active w r) with
  | nil => exact Or.inl rfl
  | cons a l => exact Or.inr ⟨_, rfl⟩

/-- C8: a non-leader unit never writes relation data, in either public
handler. -/
theorem orc8r_c8 (o : Orc8rBase) (w : World) (rid : Nat) (h : w.leader = false) :
    writesOf (configure_workload o w).2 = [] ∧
    writesOf (on_relation_joined o w rid) = [] := by
  constructor
  · unfold configure_workload
    rcases relations_created_cases o w with hc | ⟨m, hc⟩
    · rw [hc]
      rcases relations_ready_cases o w with hr | ⟨m2, hr⟩
      · rw [hr]
        by_cases hcc : w.can_connect = true
        · by_cases hs : servicesEq w.plan_services (pebble_layer o w).services = true
          · rw [configure_charm_eq_spec o w hcc hs]
            rfl
          · have hs2 : servicesEq w.plan_services (pebble_layer o w).services = false := by
              cases hb : servicesEq w.plan_services (pebble_layer o w).services
              · rfl
              · exact absurd hb hs
            rw [configure_charm_diff_spec o w hcc hs2]
            show writesOf ([.setStatus (.maintenance "Configuring pod"),
              .addLayer (container_name o) (pebble_layer o w),
              .restart (service_name o)]
              ++ update_relations o
                  { w with plan_services :=
                      add_layer_combine w.plan_services (pebble_layer o w) }
              ++ [.setStatus .active]) = []
            rw [writesOf_append, writesOf_append, writesOf_update_relations]
            simp [h, writesOf]
        · rw [Bool.not_eq_true] at hcc
          rw [configure_charm_noconnect o w hcc]
          rfl
      · rw [hr]
        rfl
    · rw [hc]
      rfl
  · unfold on_relation_joined
    rw [h]
    rfl

/-- Witness for C8: the non-leader world produces no writes from either
handler. -/
theorem orc8r_c8_witness :
    writesOf (configure_workload wBase wWorldFollower).2 = [] ∧
    writesOf (on_relation_joined wBase wWorldFollower 3) = [] :=
  orc8r_c8 wBase wWorldFollower 3 rfl

lemma relation_active_body_ne_modelError (w : World) (name : String) :
    relation_active_body w name ≠ Except.error PyExc.modelError := by
  intro h
  unfold relation_active_body at h
  split at h
  · simp at h
  · split at h
    · simp at h
    · split at h
      · simp at h
      · simp at h

/-- C10: `_relation_active` catches every exception its body can raise,
and returns true exactly when the relation exists, has a first counterpart
unit, and that unit's bag maps "active" to exactly the string "True"; only
the first unit is ever consulted. -/
theorem orc8r_c10 (w : World) (name : String) :
    relation_active_exc w name = Except.ok (relation_active w name) ∧
    (relation_active w name = true ↔
      ∃ rel u us, get_relation w name = some rel ∧ rel.units = u :: us ∧
        alookup "active" (bagOf rel u) = some "True") := by
  constructor
  · cases hb : relation_active_body w name with
    | ok b =>
      unfold relation_active_exc relation_active
      rw [hb]
    | error e =>
      cases e with
      | modelError => exact absurd hb (relation_active_body_ne_modelError w name)
      | attributeError =>
        unfold relation_active_exc relation_active
        rw [hb]
      | keyError =>
        unfold relation_active_exc relation_active
        rw [hb]
      | stopIteration =>
        unfold relation_active_exc relation_active
        rw [hb]
  · constructor
    · intro h
      unfold relation_active at h
      cases hb : relation_active_body w name with
      | error e => rw [hb] at h; simp at h
      | ok b =>
        rw [hb] at h
        simp only [] at h
        unfold relation_active_body at hb
        split at hb
        · simp at hb
        · split at hb
          · simp at hb
          · split at hb
            · simp at hb
            · rename_i x1 rel hgrel x2 u tail hunits x3 v hv
              refine ⟨rel, u, tail, hgrel, hunits, ?_⟩
              rw [hv]
              injection hb with hb2
              rw [h] at hb2
              rw [eq_of_beq hb2]
    · rintro ⟨rel, u, us, hg, hu, hb⟩
      have hbody : relation_active_body w name = .ok true := by
        unfold relation_active_body
        rw [hg]
        show (match rel.units with
          | [] => Except.error PyExc.stopIteration
          | u :: _ =>
            match alookup "active" (bagOf rel u) with
            | none => Except.error PyExc.keyError
            | some v => Except.ok (v == "True")) = Except.ok true
        rw [hu]
        show (match alookup "active" (bagOf rel u) with
          | none => Except.error PyExc.keyError
          | some v => Except.ok (v == "True")) = Except.ok true
        rw [hb]
        simp
      unfold relation_active
      rw [hbody]

/-- Witness for C10: at the concrete ready world the probe succeeds with
true, matching the counterpart's published "True". -/
theorem orc8r_c10_witness :
    relation_active_exc wWorld "a" = Except.ok (relation_active wWorld "a") ∧
    relation_active wWorld "a" = true :=
  ⟨(orc8r_c10 wWorld "a").1, by decide⟩

/-- A concrete leader world holding a relation on the charm's own endpoint
"svc", with the required relation "a" ready, an empty plan and a reachable
container. -/
def wWorldOwn : World :=
  { rels := [{ id := 1, name := "svc", units := ["r0"], bags := [] },
             { id := 7, name := "a", units := ["u0"],
               bags := [("u0", [("active", "True")])] }]
    leader := true
    model_name := "mdl"
    can_connect := true
    plan_services := [] }

/-- The same world with a non-leader unit. -/
def wWorldOwnFollower : World :=
  { rels := [{ id := 1, name := "svc", units := ["r0"], bags := [] },
             { id := 7, name := "a", units := ["u0"],
               bags := [("u0", [("active", "True")])] }]
    leader := false
    model_name := "mdl"
    can_connect := true
    plan_services := [] }

/-- Counterexample to C9 as stated: on a non-leader unit with a differing
spec and a held own-endpoint relationship, the apply and restart happen
but no relation write occurs. -/
theorem orc8r_c9_counterexample :
    relationsOf wWorldOwnFollower wBase.meta_name ≠ [] ∧
    appliesOf (configure_charm wBase wWorldOwnFollower).2 =
      [("svc", pebble_layer wBase wWorldOwnFollower)] ∧
    restartsOf (configure_charm wBase wWorldOwnFollower).2 = ["svc"] ∧
    writesOf (configure_charm wBase wWorldOwnFollower).2 = [] := by
  refine ⟨by decide, by decide, by decide, by decide⟩

lemma update_relations_after_apply (o : Orc8rBase) (w : World)
    (hl : w.leader = true) (hconn : w.can_connect = true) :
    update_relations o
      { w with plan_services := add_layer_combine w.plan_services (pebble_layer o w) }
      = (relationsOf w o.meta_name).map (fun rel => Eff.write rel.id "active" "True") := by
  unfold update_relations
  split
  · rw [service_is_running_after_apply o w hconn]
    rfl
  · rename_i hfalse
    exact absurd hl hfalse

/-- C9 (amended): on a leader unit with the container reachable, when the
computed run spec differs from the applied one, `_configure_charm`
performs, in order, the layer apply, the restart of the named service,
and a write of the readiness value (then "True") into this unit's data of
every relationship on the charm's own endpoint; when the specs are equal,
no apply, restart or write occurs. -/
theorem orc8r_c9_amended (o : Orc8rBase) (w : World)
    (hl : w.leader = true) (hconn : w.can_connect = true) :
    (servicesEq w.plan_services (pebble_layer o w).services = false →
      (configure_charm o w).2 =
        [.setStatus (.maintenance "Configuring pod"),
         .addLayer (container_name o) (pebble_layer o w),
         .restart (service_name o)]
        ++ (relationsOf w o.meta_name).map (fun rel => .write rel.id "active" "True")
        ++ [.setStatus .active]) ∧
    (servicesEq w.plan_services (pebble_layer o w).services = true →
      appliesOf (configure_charm o w).2 = [] ∧
      restartsOf (configure_charm o w).2 = [] ∧
      writesOf (configure_charm o w).2 = []) := by
  constructor
  · intro hs
    rw [configure_charm_diff_spec o w hconn hs,
      update_relations_after_apply o w hl hconn]
  · intro hs
    rw [configure_charm_eq_spec o w hconn hs]
    exact ⟨rfl, rfl, rfl⟩

/-- Witness for the amended C9: at the concrete leader world the full
effect order is maintenance, apply, restart, write "True" to the held
own-endpoint relation, then Active. -/
theorem orc8r_c9_witness :
    (configure_charm wBase wWorldOwn).2 =
      [.setStatus (.maintenance "Configuring pod"),
       .addLayer "svc" (pebble_layer wBase wWorldOwn),
       .restart "svc",
       .write 1 "active" "True",
       .setStatus .active] := by
  have H := (orc8r_c9_amended wBase wWorldOwn rfl rfl).1 (by decide)
  rw [H]
  decide

lemma plan_after_apply (o : Orc8rBase) (w : World)
    (hnd : nodupKeys w.plan_services)
    (hown : ∀ kv ∈ w.plan_services, kv.1 = service_name o) :
    add_layer_combine w.plan_services (pebble_layer o w) = (pebble_layer o w).services := by
  unfold add_layer_combine
  rcases plan_single_of_own_keys o w hnd hown with hp | ⟨s0, hp⟩
  · rw [hp]
    rfl
  · rw [hp]
    show dictSet [(service_name o, s0)] (service_name o, _) = _
    unfold dictSet
    simp [alookup]
    rfl

lemma servicesEq_layer_self (o : Orc8rBase) (w : World) :
    servicesEq (pebble_layer o w).services (pebble_layer o w).services = true :=
  servicesEq_single (service_name o) _
    (specEq_refl _ (nodupKeys_environment_variables o w))

/-- C2 (amended): if the plan's services hold no entry besides the charm's
own, then after one lifecycle call with relations ready and the container
reachable, a second call applies and restarts nothing (its computed layer
equals the applied plan) and ends Active, so the two calls together apply
at most once. -/
theorem orc8r_c2_amended (o : Orc8rBase) (w : World)
    (hplannd : nodupKeys w.plan_services)
    (hplanown : ∀ kv ∈ w.plan_services, kv.1 = service_name o)
    (hcreated : ∀ r ∈ o.required_relations, (get_relation w r).isSome = true)
    (hready : ∀ r ∈ o.required_relations, relation_active w r = true)
    (hconn : w.can_connect = true) :
    appliesOf (configure_workload o (configure_workload o w).1).2 = [] ∧
    restartsOf (configure_workload o (configure_workload o w).1).2 = [] ∧
    (appliesOf (configure_workload o w).2).length +
      (appliesOf (configure_workload o (configure_workload o w).1).2).length ≤ 1 ∧
    (restartsOf (configure_workload o w).2).length +
      (restartsOf (configure_workload o (configure_workload o w).1).2).length ≤ 1 ∧
    servicesEq ((configure_workload o w).1).plan_services
      (pebble_layer o (configure_workload o w).1).services = true ∧
    lastStatus (configure_workload o (configure_workload o w).1).2 =
      some Status.active := by
  have hcw : configure_workload o w = configure_charm o w :=
    configure_workload_of_ready o w hcreated hready
  by_cases hs : servicesEq w.plan_services (pebble_layer o w).services = true
  · have h1 : (configure_workload o w).1 = w := by
      rw [hcw, configure_charm_eq_spec o w hconn hs]
    rw [h1, hcw, configure_charm_eq_spec o w hconn hs]
    exact ⟨rfl, rfl, Nat.zero_le 1, Nat.zero_le 1, hs, rfl⟩
  · have hs2 : servicesEq w.plan_services (pebble_layer o w).services = false := by
      cases hb : servicesEq w.plan_services (pebble_layer o w).services
      · rfl
      · exact absurd hb hs
    obtain ⟨w2, hw2⟩ : ∃ w2 : World,
        { w with plan_services := add_layer_combine w.plan_services (pebble_layer o w) }
          = w2 := ⟨_, rfl⟩
    have h1 : (configure_workload o w).1 = w2 := by
      rw [hcw, configure_charm_diff_spec o w hconn hs2]
      exact hw2
    have hdiff := configure_charm_diff_spec o w hconn hs2
    rw [hw2] at hdiff
    have hplan2 : w2.plan_services = (pebble_layer o w).services := by
      rw [← hw2]
      exact plan_after_apply o w hplannd hplanown
    have hrels2 : w2.rels = w.rels := by rw [← hw2]
    have hcan2 : w2.can_connect = true := by rw [← hw2]; exact hconn
    have hpl2 : pebble_layer o w2 = pebble_layer o w := by rw [← hw2]; rfl
    have hc2 : ∀ r ∈ o.required_relations, (get_relation w2 r).isSome = true := by
      intro r hr
      unfold get_relation
      rw [hrels2]
      exact hcreated r hr
    have hr2 : ∀ r ∈ o.required_relations, relation_active w2 r = true := by
      intro r hr
      have heq : relation_active w2 r = relation_active w r := by
        unfold relation_active relation_active_body get_relation
        rw [hrels2]
      rw [heq]
      exact hready r hr
    have hs3 : servicesEq w2.plan_services (pebble_layer o w2).services = true := by
      rw [hpl2, hplan2]
      exact servicesEq_layer_self o w
    have hcw2 : configure_workload o w2 = configure_charm o w2 :=
      configure_workload_of_ready o w2 hc2 hr2
    have hcc2 := configure_charm_eq_spec o w2 hcan2 hs3
    rw [h1, hcw2, hcc2, hcw, hdiff]
    refine ⟨rfl, rfl, ?_, ?_, hs3, rfl⟩
    · rw [appliesOf_append, appliesOf_append, appliesOf_update_relations]
      exact Nat.le.refl
    · rw [restartsOf_append, restartsOf_append, restartsOf_update_relations]
      exact Nat.le.refl

/-- Witness for the amended C2: a second lifecycle call on the concrete
ready world applies nothing, restarts nothing, and stays Active. -/
theorem orc8r_c2_witness :
    appliesOf (configure_workload wBase (configure_workload wBase wWorld).1).2 = [] ∧
    restartsOf (configure_workload wBase (configure_workload wBase wWorld).1).2 = [] ∧
    lastStatus (configure_workload wBase (configure_workload wBase wWorld).1).2 =
      some Status.active := by
  have H := orc8r_c2_amended wBase wWorld (by unfold nodupKeys; decide) (by decide)
    (by decide) (by decide) (by decide)
  exact ⟨H.1, H.2.1, H.2.2.2.2.2⟩

/-- A service spec for a foreign (not charm-owned) plan entry. -/
def foreignSpec : ServiceSpec :=
  { override := "replace", summary := "other", startup := "enabled",
    command := "c", environment := [] }

/-- A concrete world equal to `wWorld` except that the container's plan
already holds a service entry "other" not owned by the charm. -/
def wWorldForeign : World :=
  { rels := [{ id := 7, name := "a", units := ["u0"],
               bags := [("u0", [("active", "True")])] }]
    leader := true
    model_name := "mdl"
    can_connect := true
    plan_services := [("other", foreignSpec)] }

/-- Counterexample to C2 as stated: with a foreign service entry in the
plan, two consecutive lifecycle calls with no intervening external change
each perform a layer apply and a restart — two in total, and the second
call is not a no-op diff. -/
theorem orc8r_c2_counterexample :
    (appliesOf (configure_workload wBase wWorldForeign).2).length +
      (appliesOf (configure_workload wBase
        (configure_workload wBase wWorldForeign).1).2).length = 2 ∧
    (restartsOf (configure_workload wBase wWorldForeign).2).length +
      (restartsOf (configure_workload wBase
        (configure_workload wBase wWorldForeign).1).2).length = 2 ∧
    servicesEq ((configure_workload wBase wWorldForeign).1).plan_services
      (pebble_layer wBase (configure_workload wBase wWorldForeign).1).services
      = false := by
  refine ⟨by decide, by decide, by decide⟩
